import Mathlib

/-!
# Verification of the maestro load-testing core

A shallow embedding, in Lean 4, of the core components of the maestro
(formerly burstsmith) load generator: the event collector, the metrics
percentile computation, the phase manager, the iteration runner, the
threshold evaluator, and the workflow/step execution pipeline with
template substitution and JSON extraction.

Conventions used throughout:
* Go `time.Duration` (int64 nanoseconds) and Go `int` are modelled as `Int`.
* Go `float64` arithmetic is modelled in `ℚ`; every concrete input used in a
  theorem below is chosen so that the corresponding `float64` computation is
  exact, making the rational model faithful at those points.
* Go's `int(x)` conversion from `float64` truncates toward zero; see `goTrunc`.
* Fallible Go operations return `Option`/`Except`; a Go `panic` is `none`.
* External collaborators (the OS environment, `net/http`, the `gjson`
  library's low-level lookup, random/time built-ins) enter as explicit
  parameters or small oracle records; everything else is translated from the
  repository's own source.
-/

namespace Maestro

/-- `core.Event` (internal/core/interfaces.go): one measurement from an
actor's workflow step.  `Timestamp` is modelled as an `Int` tick. -/
structure Event where
  actorID : Int
  timestamp : Int
  step : String
  protocol : String
  duration : Int
  success : Bool
  error : String
  statusCode : Int
  bytesSent : Int
  bytesRecv : Int
deriving Repr, DecidableEq

/-! ## Collector (internal/collector/collector.go)

The Go collector is a bounded channel (`make(chan core.Event, 1000)`) with a
single consumer goroutine appending into the `events` log.  The state below
carries exactly the data of the Go struct: the drained log, the channel
buffer, whether the channel has been closed, and the start/end times. -/

/-- Capacity of the collector's event channel: `make(chan core.Event, 1000)`. -/
def collectorQueueCap : Nat := 1000

/-- State of a `collector.Collector`: drained log, channel buffer, closed
flag, start time and (once `Close` ran) end time.  There is no further
field: in particular the Go struct has no dropped-event counter. -/
structure Collector where
  events : List Event
  queue : List Event
  closed : Bool
  startTime : Int
  endTime : Option Int
deriving Repr, DecidableEq

/-- `NewCollector` (lines 22-31): empty log, empty buffer, start time now. -/
def newCollector (now : Int) : Collector :=
  { events := [], queue := [], closed := false, startTime := now, endTime := none }

/-- `Collector.Report` (lines 43-48): `select { case c.ch <- event: default: }`.
A send on a closed channel panics even under `select` (`none`); otherwise the
event is enqueued if the buffer has room and silently dropped if it is full.
The function is total on open collectors: `Report` never blocks. -/
def Collector.report (c : Collector) (e : Event) : Option Collector :=
  if c.closed then
    none
  else if c.queue.length < collectorQueueCap then
    some { c with queue := c.queue ++ [e] }
  else
    some c

/-- One step of the consumer goroutine `collect` (lines 33-40): move the
oldest buffered event into the log.  A no-op on an empty buffer. -/
def Collector.collectStep (c : Collector) : Collector :=
  match c.queue with
  | [] => c
  | e :: rest => { c with events := c.events ++ [e], queue := rest }

/-- `Collector.Close` (lines 51-55): record the end time, `close(c.ch)` and
wait for the consumer to drain (`<-c.done`), i.e. the whole buffer reaches
the log.  Closing an already-closed channel panics (`none`). -/
def Collector.close (now : Int) (c : Collector) : Option Collector :=
  if c.closed then
    none
  else
    some { c with closed := true, endTime := some now,
                  events := c.events ++ c.queue, queue := [] }

/-- `Collector.Events` (lines 58-64): a defensive copy of the log; in the
pure model, the log itself. -/
def Collector.eventsFn (c : Collector) : List Event :=
  c.events

/-! ## Go float-to-int conversion and ComputePercentile (metrics.go) -/

/-- Go's `int(x)` conversion from `float64`: truncation toward zero
(floor for nonnegative values, ceiling for negative ones). -/
def goTrunc (q : ℚ) : Int :=
  if 0 ≤ q then ⌊q⌋ else ⌈q⌉

/-- `ComputePercentile` (metrics.go lines 42-59) over an ascending-sorted
slice of durations; `index := int(float64(len(sorted)-1) * p)`. -/
def computePercentile (sorted : List Int) (p : ℚ) : Int :=
  if sorted.length = 0 then 0
  else if sorted.length = 1 then sorted.getD 0 0
  else if p ≤ 0 then sorted.getD 0 0
  else if 1 ≤ p then sorted.getD (sorted.length - 1) 0
  else sorted.getD (goTrunc (((sorted.length : ℚ) - 1) * p)).toNat 0

/-! ## PhaseManager (internal/ratelimit/phase.go)

The clock is injected in the source (`NewPhaseManagerWithClock`), so the
elapsed time since construction is an explicit parameter here. -/

/-- `config.Phase` (internal/config/config.go lines 43-50). -/
structure Phase where
  name : String
  duration : Int
  actors : Int
  startActors : Int
  endActors : Int
  rps : Int
deriving Repr, DecidableEq

/-- `PhaseManager.CurrentPhaseIndex` (lines 34-44): the first phase whose
cumulative end exceeds the elapsed time; `len(phases)` when complete.
The running cumulative is tracked by subtracting each duration. -/
def currentPhaseIndex : List Phase → Int → Nat
  | [], _ => 0
  | p :: rest, elapsed =>
      if elapsed < p.duration then 0
      else 1 + currentPhaseIndex rest (elapsed - p.duration)

/-- `PhaseManager.CurrentPhase` (lines 46-52). -/
def currentPhase (phases : List Phase) (elapsed : Int) : Option Phase :=
  phases.get? (currentPhaseIndex phases elapsed)

/-- `PhaseManager.IsComplete` (lines 54-56). -/
def isComplete (phases : List Phase) (elapsed : Int) : Bool :=
  phases.length ≤ currentPhaseIndex phases elapsed

/-- Sum of the durations of the first `n` phases (the `phaseStart`
accumulation in `TargetActors`, lines 70-73). -/
def sumDurationsBefore (phases : List Phase) (n : Nat) : Int :=
  ((phases.take n).map (·.duration)).sum

/-- `PhaseManager.TargetActors` (lines 58-81).  Steady phases (`Actors > 0`)
return their fixed count; a ramp with equal endpoints returns the start;
otherwise `progress = phaseElapsed / duration` is computed in `float64`
(modelled in `ℚ`), clamped above at 1, and the target is
`StartActors + int(float64(EndActors-StartActors) * progress)`. -/
def targetActors (phases : List Phase) (elapsed : Int) : Int :=
  match currentPhase phases elapsed with
  | none => 0
  | some phase =>
      if 0 < phase.actors then phase.actors
      else if phase.startActors = phase.endActors then phase.startActors
      else
        let phaseStart := sumDurationsBefore phases (currentPhaseIndex phases elapsed)
        let phaseElapsed := elapsed - phaseStart
        let progress : ℚ := (phaseElapsed : ℚ) / (phase.duration : ℚ)
        let progress := if 1 < progress then 1 else progress
        phase.startActors + goTrunc ((phase.endActors - phase.startActors : Int) * progress)

/-- The amended claim's target-concurrency formula, stated from its words:
a completed profile targets 0, a steady phase (`Actors > 0`) its fixed
count, and a ramp phase `start + trunc((end − start) · progress)` where
`progress` is the phase-relative elapsed fraction clamped above at 1 and
`trunc` rounds toward zero (Go's `int` conversion). -/
def targetActorsSpec (phases : List Phase) (elapsed : Int) : Int :=
  match currentPhase phases elapsed with
  | none => 0
  | some phase =>
      if 0 < phase.actors then phase.actors
      else
        let phaseElapsed := elapsed - sumDurationsBefore phases (currentPhaseIndex phases elapsed)
        let progress : ℚ := min ((phaseElapsed : ℚ) / (phase.duration : ℚ)) 1
        phase.startActors + goTrunc ((phase.endActors - phase.startActors : Int) * progress)

/-! ## Runner (internal/core/runner.go)

`Runner` keeps an iteration counter; `RunIteration` checks the cap, selects
the real reporter or the discarding `NullReporter`, runs the workflow,
increments the counter (even on error) and propagates the workflow's
return.  The workflow's behaviour at each call is supplied as a script
`errs : Nat → Option String` (the error the workflow would return on the
n-th call that actually executes it). -/

/-- `core.RunnerConfig` (runner.go lines 19-22). -/
structure RunnerConfig where
  maxIterations : Int
  warmupIters : Int
deriving Repr, DecidableEq

/-- Outcome of one `RunIteration` call: the `ErrMaxIterationsReached`
sentinel, or a workflow execution returning `err`. -/
inductive IterOutcome where
  | sentinel
  | ran (err : Option String)
deriving Repr, DecidableEq

/-- `Runner.RunIteration` (runner.go lines 49-65) acting on the iteration
counter.  Returns the outcome, the new counter, and whether the discarding
`NullReporter` was selected (meaningful only when the workflow ran). -/
def runIteration (cfg : RunnerConfig) (iteration : Int) (wfErr : Option String) :
    IterOutcome × Int × Bool :=
  if 0 < cfg.maxIterations ∧ cfg.maxIterations ≤ iteration then
    (.sentinel, iteration, false)
  else
    (.ran wfErr, iteration + 1, decide (iteration < cfg.warmupIters))

/-- The runner's iteration counter after `n` successive `RunIteration`
calls, the workflow errors being scripted by `errs`. -/
def runnerCounter (cfg : RunnerConfig) (errs : Nat → Option String) : Nat → Int
  | 0 => 0
  | n + 1 => (runIteration cfg (runnerCounter cfg errs n) (errs n)).2.1

/-- The n-th `RunIteration` call (outcome, new counter, null-reporter flag). -/
def runnerCall (cfg : RunnerConfig) (errs : Nat → Option String) (n : Nat) :
    IterOutcome × Int × Bool :=
  runIteration cfg (runnerCounter cfg errs n) (errs n)

/-- How many of the first `n` calls executed the workflow with the real
(non-discarding) reporter. -/
def runnerRealReports (cfg : RunnerConfig) (errs : Nat → Option String) : Nat → Nat
  | 0 => 0
  | n + 1 =>
      runnerRealReports cfg errs n +
        (match runnerCall cfg errs n with
         | (.ran _, _, false) => 1
         | _ => 0)

/-! ## Threshold evaluation (internal/collector/thresholds.go)

The display strings of a `ThresholdResult` (`Threshold`, `Actual`) are
produced by `FormatDuration` / `fmt.Sprintf` purely for presentation and are
not modelled; a result here is its name and pass flag.  `Metrics` is
restricted to the fields `Check` reads. -/

/-- `collector.DurationThresholds` (thresholds.go lines 17-23); zero means
"unset". -/
structure DurationThresholds where
  avg : Int
  p50 : Int
  p90 : Int
  p95 : Int
  p99 : Int
deriving Repr, DecidableEq

/-- `collector.FailureThresholds` (lines 26-28). -/
structure FailureThresholds where
  rate : String
deriving Repr, DecidableEq

/-- `collector.Thresholds` (lines 11-14); both sections optional. -/
structure Thresholds where
  httpReqDuration : Option DurationThresholds
  httpReqFailed : Option FailureThresholds
deriving Repr, DecidableEq

/-- `collector.DurationMetrics` (metrics declarations in compute/format). -/
structure DurationMetrics where
  min : Int
  max : Int
  avg : Int
  p50 : Int
  p90 : Int
  p95 : Int
  p99 : Int
deriving Repr, DecidableEq

/-- The fields of `collector.Metrics` that `Thresholds.Check` reads:
`SuccessRate` (a `float64` percentage, modelled in `ℚ`) and the overall
`Duration` metrics. -/
structure Metrics where
  successRate : ℚ
  duration : DurationMetrics
deriving Repr, DecidableEq

/-- `collector.ThresholdResult` (lines 31-36) without the display-only
`Threshold`/`Actual` strings. -/
structure ThresholdResult where
  name : String
  passed : Bool
deriving Repr, DecidableEq

/-- `collector.ThresholdResults` (lines 39-42). -/
structure ThresholdResults where
  passed : Bool
  results : List ThresholdResult
deriving Repr, DecidableEq

/-- The value of a nonnegative decimal literal `digits` so far, base 10. -/
def digitsVal (ds : List Char) : ℕ :=
  ds.foldl (fun acc d => 10 * acc + (d.toNat - 48)) 0

/-- `strconv.ParseFloat`, modelled for plain decimal literals (optional
sign, integer digits, optional fractional digits, at least one digit, no
trailing garbage) — the forms a threshold percentage uses.  Exponents, hex
floats and inf/NaN spellings are not modelled. -/
def parseGoFloat (s : String) : Option ℚ :=
  let cs := s.toList
  let signed : ℚ × List Char :=
    match cs with
    | '+' :: r => (1, r)
    | '-' :: r => (-1, r)
    | r => (1, r)
  let sign := signed.1
  let intPart := signed.2.takeWhile (·.isDigit)
  let rest := signed.2.dropWhile (·.isDigit)
  match rest with
  | [] =>
      if intPart = [] then none
      else some (sign * (digitsVal intPart : ℚ))
  | '.' :: rest2 =>
      let fracPart := rest2.takeWhile (·.isDigit)
      let rest3 := rest2.dropWhile (·.isDigit)
      if rest3 ≠ [] then none
      else if intPart = [] ∧ fracPart = [] then none
      else some (sign * ((digitsVal intPart : ℚ) +
        (digitsVal fracPart : ℚ) / ((10 : ℚ) ^ fracPart.length)))
  | _ => none

/-- `strings.TrimSpace`: strip whitespace from both ends. -/
def goTrimSpace (s : String) : String :=
  (((s.toList.dropWhile Char.isWhitespace).reverse.dropWhile
      Char.isWhitespace).reverse).asString

/-- `parsePercentage` (thresholds.go lines 119-126): trim space, require a
trailing `%`, parse the rest as a float. -/
def parsePercentage (s : String) : Option ℚ :=
  let cs := (goTrimSpace s).toList
  if cs.getLast? = some '%' then parseGoFloat cs.dropLast.asString else none

/-- The five latency checks of `checkDurationThresholds` (lines 67-77) as
(name, threshold, actual) triples. -/
def durationChecks (t : DurationThresholds) (a : DurationMetrics) :
    List (String × Int × Int) :=
  [("http_req_duration.avg", t.avg, a.avg),
   ("http_req_duration.p50", t.p50, a.p50),
   ("http_req_duration.p90", t.p90, a.p90),
   ("http_req_duration.p95", t.p95, a.p95),
   ("http_req_duration.p99", t.p99, a.p99)]

/-- The loop body of `checkDurationThresholds` (lines 79-95): skip zero
thresholds; otherwise record a result passing iff `actual < threshold`,
clearing the aggregate flag on failure. -/
def checkDurationFold (r : ThresholdResults) (checks : List (String × Int × Int)) :
    ThresholdResults :=
  checks.foldl
    (fun acc c =>
      if c.2.1 = 0 then acc
      else
        let passed := decide (c.2.2 < c.2.1)
        { passed := acc.passed && passed,
          results := acc.results ++ [⟨c.1, passed⟩] })
    r

/-- `checkFailureRate` (lines 98-117): parse the percentage (skipping the
check entirely on a parse error), then record a result passing iff
`100 - successRate < threshold`. -/
def checkFailureRate (r : ThresholdResults) (ft : FailureThresholds) (m : Metrics) :
    ThresholdResults :=
  match parsePercentage ft.rate with
  | none => r
  | some thr =>
      let passed := decide (100 - m.successRate < thr)
      { passed := r.passed && passed,
        results := r.results ++ [⟨"http_req_failed.rate", passed⟩] }

/-- `Thresholds.Check` (lines 45-64); a nil receiver yields a passing,
empty result set. -/
def thresholdsCheck (t : Option Thresholds) (m : Metrics) : ThresholdResults :=
  match t with
  | none => ⟨true, []⟩
  | some t =>
      let r : ThresholdResults := ⟨true, []⟩
      let r :=
        match t.httpReqDuration with
        | some d => checkDurationFold r (durationChecks d m.duration)
        | none => r
      match t.httpReqFailed with
      | some f => if f.rate ≠ "" then checkFailureRate r f m else r
      | none => r

/-- The claim's description of threshold evaluation, written from its words:
one result per configured nonzero latency bound, passing iff the actual
duration is strictly below the bound; a failure-rate result only when the
trimmed rate string ends in `%` and parses, passing iff `100 − successRate`
is strictly below it; the aggregate is the conjunction of all recorded
results, `true` when none were recorded. -/
def thresholdsCheckSpec (t : Option Thresholds) (m : Metrics) : ThresholdResults :=
  match t with
  | none => ⟨true, []⟩
  | some t =>
      let durResults :=
        match t.httpReqDuration with
        | none => []
        | some d =>
            ((durationChecks d m.duration).filter (fun c => c.2.1 ≠ 0)).map
              (fun c => (⟨c.1, decide (c.2.2 < c.2.1)⟩ : ThresholdResult))
      let rateResults :=
        match t.httpReqFailed with
        | none => []
        | some f =>
            match parsePercentage f.rate with
            | none => []
            | some thr => [(⟨"http_req_failed.rate",
                decide (100 - m.successRate < thr)⟩ : ThresholdResult)]
      let results := durResults ++ rateResults
      ⟨results.all (·.passed), results⟩

/-! ## JSON values and variables

Scalar and composite JSON values as produced by the external `gjson`
library's `Value()`. -/

/-- A parsed JSON value. -/
inductive Json where
  | null
  | bool (b : Bool)
  | num (q : ℚ)
  | str (s : String)
  | arr (elems : List Json)
  | obj (fields : List (String × Json))
deriving Repr

/-- Modelled from the spec: the `core` Variables implementation
(`MapVariables`) is not under `src/`; §3 specifies a per-iteration scoped
mapping from name to scalar value, and its test (`TestMapVariables`)
fixes map `Get`/`Set` semantics.  An association list where the most
recent `set` wins. -/
abbrev Variables : Type := List (String × Json)

/-- `Variables.Get`: the most recently set binding for `k`, if any. -/
def Variables.get (vs : Variables) (k : String) : Option Json :=
  match List.find? (fun p => p.1 == k) vs with
  | some p => some p.2
  | none => none

/-- `Variables.Set`: bind `k` to `v`, shadowing any previous binding. -/
def Variables.set (vs : Variables) (k : String) (v : Json) : Variables :=
  (k, v) :: vs

/-- `core.NewVariables`: the empty mapping. -/
def newVariables : Variables := []

mutual

/-- `fmt.Sprintf("%v", val)` for the values a workflow variable can hold.
Scalars follow Go's default formats (`<nil>`, `true`/`false`, strings
verbatim, integral floats without a decimal point); composite rendering
follows Go's `[a b]` / `map[k:v]` shape (Go additionally sorts map keys,
which the model does not reproduce — no claim depends on it). -/
def goRender : Json → String
  | .null => "<nil>"
  | .bool true => "true"
  | .bool false => "false"
  | .str s => s
  | .num q => if q.den = 1 then toString q.num else toString q
  | .arr es => "[" ++ goRenderSeq es ++ "]"
  | .obj fs => "map[" ++ goRenderFields fs ++ "]"

/-- Space-separated rendering of a JSON array's elements. -/
def goRenderSeq : List Json → String
  | [] => ""
  | [e] => goRender e
  | e :: rest => goRender e ++ " " ++ goRenderSeq rest

/-- Space-separated `k:v` rendering of a JSON object's fields. -/
def goRenderFields : List (String × Json) → String
  | [] => ""
  | [f] => f.1 ++ ":" ++ goRender f.2
  | f :: rest => f.1 ++ ":" ++ goRender f.2 ++ " " ++ goRenderFields rest

end

/-! ## Template substitution (internal/template, part_016 / part_015)

`Substitute` scans the text with `varPattern = \$\{([^}]+)\}`.  A template
is modelled as the parse of the text under that pattern: an alternation of
literal runs (containing no placeholder) and placeholder expressions.
The process environment (`os.LookupEnv`) and the built-in function registry
(whose members read the clock or random source) are external effects,
supplied as an oracle record. -/

/-- One segment of a template: a literal run, or the expression inside a
`${...}` placeholder. -/
inductive TplSeg where
  | lit (s : String)
  | hole (expr : String)
deriving Repr, DecidableEq

/-- A template: the segments of a text under `varPattern`. -/
abbrev Template : Type := List TplSeg

/-- External effects reaching `Substitute`: the process environment and the
built-in function registry of part_015.  `fnReg name args = none` iff `name`
is not a registered function; `some (.error e)` is a function error with
message `e`; `some (.ok s)` is a successful result. -/
structure TplEnv where
  env : String → Option String
  fnReg : String → String → Option (Except String String)

/-- The original placeholder text `${expr}`, returned as the replacement on
a failed substitution (the whole result is then discarded). -/
def matchStr (expr : String) : String :=
  "$\x7b" ++ expr ++ "\x7d"

/-- Rejoin the pieces of a split on `(` with the separator restored. -/
def joinParen : List (List Char) → List Char
  | [] => []
  | [x] => x
  | x :: rest => x ++ '(' :: joinParen rest

/-- `evalFunction` (part_015 lines 24-43): a placeholder is a function call
iff it contains `(` , ends with `)` and names a registered function; the
argument text sits between the first `(` and the final `)`. -/
def evalFunction (E : TplEnv) (expr : String) : Option (Except String String) :=
  let cs := expr.toList
  if cs.getLast? = some ')' then
    match cs.splitOn '(' with
    | name :: afterFirst :: more =>
        E.fnReg name.asString ((joinParen (afterFirst :: more)).dropLast).asString
    | _ => none
  else none

/-- The per-placeholder body of `Substitute` (part_016 lines 32-60): env
lookups, registered functions, then workflow variables; each failure yields
its error message and leaves the placeholder text in place. -/
def substHole (E : TplEnv) (vars : Variables) (expr : String) :
    String × Option String :=
  if List.isPrefixOf "env:".toList expr.toList then
    let envName := (expr.toList.drop 4).asString
    match E.env envName with
    | some v => (v, none)
    | none => (matchStr expr, some ("env var \"" ++ envName ++ "\" not set"))
  else
    match evalFunction E expr with
    | some (.ok r) => (r, none)
    | some (.error e) => (matchStr expr, some e)
    | none =>
        match vars.get expr with
        | some v => (goRender v, none)
        | none => (matchStr expr, some ("variable \"" ++ expr ++ "\" not found"))

/-- `Substitute` (part_016 lines 25-66): one pass over the segments,
accumulating the substituted text and the error messages.  The Go function
returns `("", errors.Join(errs))` when `errs` is non-empty and
`(result, nil)` otherwise; both components are recoverable from this pair
via `errorsJoin`. -/
def substitute (E : TplEnv) (vars : Variables) : Template → String × List String
  | [] => ("", [])
  | .lit s :: rest =>
      let r := substitute E vars rest
      (s ++ r.1, r.2)
  | .hole expr :: rest =>
      let h := substHole E vars expr
      let r := substitute E vars rest
      (h.1 ++ r.1, h.2.toList ++ r.2)

/-- `errors.Join`: the messages joined by newlines. -/
def errorsJoin : List String → String
  | [] => ""
  | [e] => e
  | e :: rest => e ++ "\n" ++ errorsJoin rest

/-- `SubstituteMap` (part_016 lines 70-91): substitute every header value,
wrapping each failing entry's joined errors as `header "k": ...`. -/
def substituteMap (E : TplEnv) (vars : Variables) (hs : List (String × Template)) :
    List (String × String) × List String :=
  hs.foldl
    (fun acc h =>
      let r := substitute E vars h.2
      if r.2 = [] then (acc.1 ++ [(h.1, r.1)], acc.2)
      else (acc.1, acc.2 ++ ["header \"" ++ h.1 ++ "\": " ++ errorsJoin r.2]))
    ([], [])

/-! ## JSON extraction (internal/template/extract.go) -/

/-- Scan forward to the first `]`, returning the bracket content and the
remainder after it, or `none` when no `]` follows. -/
def takeToRBracket : List Char → Option (List Char × List Char)
  | [] => none
  | c :: rest =>
      if c = ']' then some ([], rest)
      else (takeToRBracket rest).map (fun p => (c :: p.1, p.2))

/-- The bracket-conversion loop of `convertJSONPath` (extract.go lines
59-84): `[*]` becomes `.#`, `[n]` becomes `.n`, an unmatched `[` is copied
verbatim.  The scan always advances, so the input length bounds the number
of steps; recursion is on that fuel to keep the definition structural. -/
def convertCharsGo : Nat → List Char → List Char
  | 0, cs => cs
  | _ + 1, [] => []
  | fuel + 1, c :: rest =>
      if c = '[' then
        match takeToRBracket rest with
        | some p =>
            (if p.1 = ['*'] then ['.', '#'] else '.' :: p.1) ++
              convertCharsGo fuel p.2
        | none => c :: convertCharsGo fuel rest
      else c :: convertCharsGo fuel rest

/-- The bracket-conversion loop run with enough fuel for the whole input. -/
def convertChars (cs : List Char) : List Char :=
  convertCharsGo cs.length cs

/-- `convertJSONPath` (extract.go lines 49-85): strip a leading `$.` or `$`,
then convert bracketed indices. -/
def convertJSONPath (path : String) : String :=
  let cs := path.toList
  let p := if List.isPrefixOf "$.".toList cs then cs.drop 2
           else if List.isPrefixOf "$".toList cs then cs.drop 1
           else cs
  (convertChars p).asString

/-- A non-empty all-digit string read as a decimal index. -/
def decDigits? (cs : List Char) : Option Nat :=
  if cs ≠ [] ∧ cs.all Char.isDigit then some (digitsVal cs) else none

/-- Walk a dotted `gjson` path: object fields by name, array elements by
numeric index.  This models the external `gjson.GetBytes` lookup for the
plain paths the workflows use; `#` wildcard queries are not modelled and
yield "not found". -/
def walkPath : Json → List String → Option Json
  | j, [] => some j
  | .obj fs, s :: rest =>
      match List.find? (fun f => f.1 == s) fs with
      | some f => walkPath f.2 rest
      | none => none
  | .arr es, s :: rest =>
      match decDigits? s.toList with
      | some i =>
          match es.get? i with
          | some v => walkPath v rest
          | none => none
      | none => none
  | _, _ :: _ => none

/-- Lookup of a converted path in a parsed body (`gjson.GetBytes`). -/
def jsonGet (j : Json) (path : String) : Option Json :=
  walkPath j ((path.toList.splitOn '.').map List.asString)

/-- A response body as extraction sees it: either bytes that are not valid
JSON (`gjson.ValidBytes` fails), or a parsed value; `size` is the byte
length read. -/
inductive JsonBody where
  | invalid (size : Int)
  | valid (j : Json) (size : Int)
deriving Repr

/-- Byte length of the body read. -/
def JsonBody.size : JsonBody → Int
  | .invalid n => n
  | .valid _ n => n

/-- `Extract` (extract.go lines 15-43): no rules yields a nil map; an
invalid body fails wholesale; otherwise each rule's converted path is looked
up, missing paths collect `path "p" not found for variable "v"` errors, and
the extraction fails iff any path was missing.  Go iterates the rules map in
unspecified order; the model uses list order. -/
def extractFn (body : JsonBody) (rules : List (String × String)) :
    Except (List String) (List (String × Json)) :=
  if rules = [] then .ok []
  else
    match body with
    | .invalid _ => .error ["invalid JSON in response body"]
    | .valid j _ =>
        let step := fun (acc : List (String × Json) × List String)
            (r : String × String) =>
          match jsonGet j (convertJSONPath r.2) with
          | none =>
              (acc.1, acc.2 ++
                ["path \"" ++ r.2 ++ "\" not found for variable \"" ++ r.1 ++ "\""])
          | some v => (acc.1 ++ [(r.1, v)], acc.2)
        let out := rules.foldl step ([], [])
        if out.2 = [] then .ok out.1 else .error out.2

/-! ## HTTP step execution (internal/http, part_011 lines 15-159)

`net/http` is an external collaborator; one request/response exchange is
summarized by what `Step.Execute` observes of it.  The error value of a
failed `client.Do` and the `Status` line of a response are produced by the
standard library; well-formedness of those strings is a separate predicate
(`Exchange.WF`) discharged wherever a theorem needs it.  The debug logger is
`nil` throughout (`s.debug.Log...` on a nil logger is a no-op, and the
response body is then read only when extraction needs it). -/

/-- `core.Result` as populated by `Step.Execute` (part_011); the `core`
source file declaring it is not under `src/`, its fields are fixed by the
uses in part_011 and workflow.go. -/
structure Result where
  duration : Int
  success : Bool
  error : String
  statusCode : Int
  bytesSent : Int
  bytesRecv : Int
  extract : Option (List (String × Json))
deriving Repr

/-- `config.StepConfig` as read by `Step.Execute`: name, method, templated
URL/body/headers, and the extraction rules (variable name → JSON path). -/
structure StepConfig where
  name : String
  method : String
  url : Template
  body : Template
  headers : List (String × Template)
  extract : List (String × String)

/-- What one HTTP exchange looks like from the step's side:
`http.NewRequestWithContext` failed, `client.Do` returned a (non-nil)
error, or a response arrived with a status code, a `Status` line and a
body. -/
inductive Exchange where
  | reqErr (msg : String)
  | transportErr (msg : String)
  | resp (status : Int) (statusLine : String) (body : JsonBody)
deriving Repr

/-- The strings the standard library hands the step are non-empty: a
non-nil `error`'s text and a response's `Status` line. -/
def Exchange.WF : Exchange → Prop
  | .reqErr m => m ≠ ""
  | .transportErr m => m ≠ ""
  | .resp _ statusLine _ => statusLine ≠ ""

/-- Registered built-in functions return non-empty error messages (every
error literal in part_015 is non-empty). -/
def TplEnv.WF (E : TplEnv) : Prop :=
  ∀ name args e, E.fnReg name args = some (.error e) → e ≠ ""

/-- `Step.Execute` (part_011 lines 41-158) with a nil debug logger.
Substitutes URL, body and headers (each failure returns a failed `Result`
AND a non-nil error); then performs the exchange: a request-creation or
transport error also returns a non-nil error; a response classifies
`status < 400` as success with `Status` as the error text otherwise, runs
extraction when successful and rules exist — an extraction failure flips
`success` and sets the error text but the returned Go error stays nil. -/
def stepExecute (E : TplEnv) (cfg : StepConfig) (exch : Exchange)
    (vars : Variables) (dur : Int) : Result × Option String :=
  let u := substitute E vars cfg.url
  if u.2 ≠ [] then
    let e := errorsJoin u.2
    (⟨dur, false, e, 0, 0, 0, none⟩, some e)
  else
    let b := substitute E vars cfg.body
    if b.2 ≠ [] then
      let e := errorsJoin b.2
      (⟨dur, false, e, 0, 0, 0, none⟩, some e)
    else
      let hs := substituteMap E vars cfg.headers
      if hs.2 ≠ [] then
        let e := errorsJoin hs.2
        (⟨dur, false, e, 0, 0, 0, none⟩, some e)
      else
        match exch with
        | .reqErr m => (⟨dur, false, m, 0, 0, 0, none⟩, some m)
        | .transportErr m => (⟨dur, false, m, 0, 0, 0, none⟩, some m)
        | .resp status statusLine body =>
            let bytesRecv := if cfg.extract ≠ [] then body.size else 0
            let bytesSent := (b.1.length : Int)
            if status < 400 ∧ cfg.extract ≠ [] then
              match extractFn body cfg.extract with
              | .ok kvs =>
                  (⟨dur, true, "", status, bytesSent, bytesRecv, some kvs⟩, none)
              | .error errs =>
                  (⟨dur, false, errorsJoin errs, status, bytesSent, bytesRecv,
                    none⟩, none)
            else
              (⟨dur, decide (status < 400),
                if status < 400 then "" else statusLine,
                status, bytesSent, bytesRecv, none⟩, none)

/-! ## Workflow.Run (internal/http/workflow.go lines 24-69) -/

/-- One scripted step of an iteration: its config, the exchange the network
produces for it, and the measured duration. -/
structure StepScript where
  cfg : StepConfig
  exch : Exchange
  dur : Int

/-- The event emitted for a step's result (workflow.go lines 44-55). -/
def mkEvent (actorID : Int) (stepName : String) (r : Result) : Event :=
  { actorID := actorID, timestamp := 0, step := stepName, protocol := "http",
    duration := r.duration, success := r.success, error := r.error,
    statusCode := r.statusCode, bytesSent := r.bytesSent,
    bytesRecv := r.bytesRecv }

/-- The merge step of `Workflow.Run` (lines 57-61): whenever the result
carries a non-nil extract map, its pairs are set into the iteration's
variables — the result's `success` flag is not consulted. -/
def applyExtract (vars : Variables) (r : Result) : Variables :=
  match r.extract with
  | some kvs => kvs.foldl (fun vs kv => vs.set kv.1 kv.2) vars
  | none => vars

/-- The step loop of `Workflow.Run` (lines 41-66): execute each step,
report one event, merge any extract map, and return the step's error (if
non-nil) without executing the remaining steps. -/
def workflowRunGo (E : TplEnv) (actorID : Int) :
    Variables → List StepScript → List Event × Option String
  | _, [] => ([], none)
  | vars, s :: rest =>
      let r := stepExecute E s.cfg s.exch vars s.dur
      let ev := mkEvent actorID s.cfg.name r.1
      let vars := applyExtract vars r.1
      match r.2 with
      | some e => ([ev], some e)
      | none =>
          let tail := workflowRunGo E actorID vars rest
          (ev :: tail.1, tail.2)

/-- `Workflow.Run` for one iteration: the rate-limiter `Wait` first (its
error, if any, is propagated before any step), then the step loop over
fresh variables. -/
def workflowRun (E : TplEnv) (actorID : Int) (acquireErr : Option String)
    (steps : List StepScript) : List Event × Option String :=
  match acquireErr with
  | some e => ([], some e)
  | none => workflowRunGo E actorID newVariables steps

/-! ## Coordinator (part_007, maestro version)

The actor goroutine body of `Coordinator.Spawn` (lines 209-228): loop
`select ctx.Done → return; default: if workflow.Run(...) != nil → return`.
The model observes a finite script of iterations, each a list of step
scripts, with the context never cancelled. -/

/-- The actor loop of `Coordinator.Spawn` with an uncancelled context,
observed over a finite script: each entry is one iteration's step script.
Returns the events the actor reported and the number of `workflow.Run`
calls it made; the loop returns (executor exits) at the first call whose
error is non-nil. -/
def spawnActorLoop (E : TplEnv) (id : Int) :
    List (List StepScript) → List Event × Nat
  | [] => ([], 0)
  | it :: rest =>
      let r := workflowRun E id none it
      match r.2 with
      | some _ => (r.1, 1)
      | none =>
          let tail := spawnActorLoop E id rest
          (r.1 ++ tail.1, tail.2 + 1)

/-- `Coordinator.recoverPanic` (part_007 lines 337-346): the synthetic
event reported when an actor goroutine panics with message `msg`. -/
def panicEvent (actorID : Int) (msg : String) : Event :=
  { actorID := actorID, timestamp := 0, step := "panic", protocol := "",
    duration := 0, success := false, error := "panic: " ++ msg,
    statusCode := 0, bytesSent := 0, bytesRecv := 0 }

/-! ## Concrete instances used by the theorems below -/

/-- A successful sample event. -/
def sampleEvent : Event :=
  { actorID := 1, timestamp := 0, step := "s", protocol := "http",
    duration := 5, success := true, error := "", statusCode := 200,
    bytesSent := 0, bytesRecv := 0 }

/-- An open collector whose channel buffer is at capacity (a slow consumer
behind 1000 pending events). -/
def fullCollector : Collector :=
  { events := [], queue := List.replicate 1000 sampleEvent, closed := false,
    startTime := 0, endTime := none }

/-- A ramp-down phase: 4 time units long, from 5 actors down to 2. -/
def rampDownPhase : Phase :=
  { name := "down", duration := 4, actors := 0, startActors := 5,
    endActors := 2, rps := 0 }

/-- An environment/function oracle with nothing set and nothing registered. -/
def emptyTplEnv : TplEnv :=
  { env := fun _ => none, fnReg := fun _ _ => none }

/-- A placeholder-free GET step configuration named `nm`. -/
def plainCfg (nm : String) : StepConfig :=
  { name := nm, method := "GET", url := [.lit "u"], body := [.lit ""],
    headers := [], extract := [] }

/-- A step whose exchange is a plain 200 response, no extraction. -/
def okStep : StepScript :=
  { cfg := plainCfg "b", exch := .resp 200 "200 OK" (.valid .null 0), dur := 5 }

/-- A step extracting `$.id` from a 200 response whose JSON body is an
empty object: the path is missing, so extraction fails. -/
def extractFailStep : StepScript :=
  { cfg := { plainCfg "a" with extract := [("rid", "$.id")] },
    exch := .resp 200 "200 OK" (.valid (.obj []) 2), dur := 5 }

/-- A step extracting `$.id` from a 200 response whose JSON body carries
`id`, so extraction succeeds. -/
def extractOkStep : StepScript :=
  { cfg := { plainCfg "x" with extract := [("rid", "$.id")] },
    exch := .resp 200 "200 OK" (.valid (.obj [("id", Json.str "t")]) 2),
    dur := 5 }

/-- A step whose exchange fails at the transport level (`client.Do`
returns a `*url.Error`). -/
def transportStep : StepScript :=
  { cfg := plainCfg "t", exch := .transportErr "Get \"u\": connection refused",
    dur := 3 }

/-- A step whose URL template holds one unknown variable. -/
def badUrlStep : StepScript :=
  { cfg := { plainCfg "u1" with url := [.hole "tok"] },
    exch := .resp 200 "200 OK" (.valid .null 0), dur := 2 }

/-- A `Result` that no step of this program produces — failed yet carrying
an extract map — exercising `Workflow.Run`'s merge in isolation. -/
def badResult : Result :=
  { duration := 0, success := false, error := "boom", statusCode := 500,
    bytesSent := 0, bytesRecv := 0, extract := some [("k", Json.str "v")] }

/-! # Theorems -/

/-! ## C2 — Collector.Report -/

/-- C2, counterexample.  The claim states that when the bounded queue is
full the dropped event increments a dropped-event counter.  Reporting into
a collector whose 1000-slot buffer is full returns a state *identical* to
the input state: the event is dropped silently and nothing in the
collector's state — which carries every field of the Go struct — records
the drop.  No dropped-event counter exists. -/
theorem c2_full_report_changes_nothing :
    fullCollector.queue.length = collectorQueueCap ∧
    fullCollector.report sampleEvent = some fullCollector := by
  have hlen : fullCollector.queue.length = 1000 :=
    List.length_replicate 1000 sampleEvent
  have hc : fullCollector.closed = false := rfl
  constructor
  · rw [hlen]; rfl
  · unfold Collector.report
    rw [hlen, hc]
    norm_num [collectorQueueCap]

/-- C2, amended.  `Report` on an open collector never blocks and never
panics: when the queue is full the event is dropped and the state is left
completely unchanged (no counter of any kind is incremented); otherwise
the event is appended to the queue for the single consumer. -/
theorem c2_report_drops_or_enqueues (c : Collector) (e : Event)
    (h : c.closed = false) :
    (¬ c.queue.length < collectorQueueCap → c.report e = some c) ∧
    (c.queue.length < collectorQueueCap →
      c.report e = some { c with queue := c.queue ++ [e] }) := by
  constructor <;> intro h2 <;> simp [Collector.report, h, h2]

/-- Witness for `c2_report_drops_or_enqueues` at a fresh collector. -/
theorem c2_report_drops_or_enqueues_witness :
    (newCollector 0).report sampleEvent =
      some { events := [], queue := [sampleEvent], closed := false,
             startTime := 0, endTime := none } := by
  have h := (c2_report_drops_or_enqueues (newCollector 0) sampleEvent rfl).2
    (by simp [newCollector, collectorQueueCap])
  simpa [newCollector] using h

/-! ## C3 — Collector.Close -/

/-- C3, counterexample.  The claim states `Close()` may be called twice
without panicking.  The first `Close` of a fresh collector succeeds, and the
second panics (`close` of a closed channel), modelled as `none`. -/
theorem c3_double_close_panics :
    ((newCollector 0).close 5).isSome = true ∧
    ((newCollector 0).close 5).bind (Collector.close 7) = none := by
  constructor
  · simp [Collector.close, newCollector]
  · simp [Collector.close, newCollector, Option.bind]

/-- C3, amended.  `Close()` must be called exactly once: a second `Close()`
panics (close of a closed channel).  The stability half of the claim holds:
after the first `Close()` returns, the consumer has drained the whole
buffer into the log, `Events()` returns that final log, and further
consumer steps change nothing. -/
theorem c3_close_once_then_stable (c : Collector) (t1 t2 : Int)
    (h : c.closed = false) :
    ∃ c1, c.close t1 = some c1 ∧
      c1.eventsFn = c.events ++ c.queue ∧
      c1.collectStep = c1 ∧
      c1.close t2 = none := by
  refine ⟨⟨c.events ++ c.queue, [], true, c.startTime, some t1⟩, ?_, ?_, ?_, ?_⟩
  · simp [Collector.close, h]
  · simp [Collector.eventsFn]
  · simp [Collector.collectStep]
  · simp [Collector.close]

/-- Witness for `c3_close_once_then_stable` at a fresh collector holding
one drained and one buffered event. -/
theorem c3_close_once_then_stable_witness :
    ∃ c1, Collector.close 5
        { events := [sampleEvent], queue := [sampleEvent], closed := false,
          startTime := 0, endTime := none } = some c1 ∧
      c1.eventsFn = [sampleEvent] ++ [sampleEvent] ∧
      c1.collectStep = c1 ∧
      c1.close 7 = none :=
  c3_close_once_then_stable
    { events := [sampleEvent], queue := [sampleEvent], closed := false,
      startTime := 0, endTime := none } 5 7 rfl

/-! ## C7 — PhaseManager target concurrency -/

/-- C7, counterexample.  The claim states the interpolated ramp term is
floored (rounded toward −∞) "including when end < start".  One time unit
into `rampDownPhase` (duration 4, from 5 down to 2; all values exact in
`float64`), the code computes `5 + int(-3 · 1/4) = 5 + 0 = 5`, while the
claimed formula gives `5 + ⌊-0.75⌋ = 4`. -/
theorem c7_ramp_down_not_floored :
    targetActors [rampDownPhase] 1 = 5 ∧
    rampDownPhase.startActors +
      ⌊((rampDownPhase.endActors - rampDownPhase.startActors : Int) : ℚ) *
        ((1 : ℚ) / (rampDownPhase.duration : ℚ))⌋ = 4 ∧
    targetActors [rampDownPhase] 1 ≠
      rampDownPhase.startActors +
        ⌊((rampDownPhase.endActors - rampDownPhase.startActors : Int) : ℚ) *
          ((1 : ℚ) / (rampDownPhase.duration : ℚ))⌋ := by
  have h1 : targetActors [rampDownPhase] 1 = 5 := by
    norm_num [targetActors, currentPhase, currentPhaseIndex, rampDownPhase,
      sumDurationsBefore, goTrunc]
  have h2 : rampDownPhase.startActors +
      ⌊((rampDownPhase.endActors - rampDownPhase.startActors : Int) : ℚ) *
        ((1 : ℚ) / (rampDownPhase.duration : ℚ))⌋ = 4 := by
    norm_num [rampDownPhase]
  refine ⟨h1, h2, by rw [h1, h2]; decide⟩

/-- C7, amended: the interpolated term is converted with Go's `int`
conversion, which truncates toward zero — this coincides with the floor
exactly when the term is nonnegative (e.g. every ramp-up) — while a steady
phase yields its fixed actor count and a completed profile yields 0; and
within a phase reached at a nonnegative instant the phase-relative elapsed
time is nonnegative (so clamping progress into [0,1] needs only the upper
bound).  `targetActorsSpec` restates the amended formula. -/
theorem c7_target_actors_amended (phases : List Phase) (elapsed : Int) (q : ℚ) :
    targetActors phases elapsed = targetActorsSpec phases elapsed ∧
    (0 ≤ q → goTrunc q = ⌊q⌋) ∧
    (0 ≤ elapsed → currentPhaseIndex phases elapsed < phases.length →
      0 ≤ elapsed - sumDurationsBefore phases (currentPhaseIndex phases elapsed)) := by
  refine ⟨?_, ?_, ?_⟩
  · unfold targetActors targetActorsSpec
    cases h : currentPhase phases elapsed with
    | none => rfl
    | some phase =>
        by_cases ha : 0 < phase.actors
        · simp [ha]
        · by_cases hse : phase.startActors = phase.endActors
          · simp [ha, hse, goTrunc]
          · simp only [ha, hse, if_false]
            congr 1
            congr 1
            rcases le_or_lt ((elapsed - sumDurationsBefore phases
                (currentPhaseIndex phases elapsed) : Int) : ℚ)
                ((phase.duration : Int) : ℚ) with hle | hgt
            · congr 1
              rw [min_def]
              split <;> split <;> first | rfl | omega | linarith
            · congr 1
              rw [min_def]
              split <;> split <;> first | rfl | omega | linarith
  · intro hq
    simp [goTrunc, hq]
  · intro he
    induction phases generalizing elapsed with
    | nil => intro h2; simp at h2
    | cons p rest ih =>
        intro h2
        by_cases hd : elapsed < p.duration
        · simp [currentPhaseIndex, hd, sumDurationsBefore, he]
        · simp only [currentPhaseIndex, hd, if_false] at h2 ⊢
          have he2 : 0 ≤ elapsed - p.duration := by omega
          have h2' : currentPhaseIndex rest (elapsed - p.duration) < rest.length := by
            simp only [List.length_cons] at h2
            omega
          have := ih (elapsed - p.duration) he2 h2'
          have hsum : sumDurationsBefore (p :: rest)
              (1 + currentPhaseIndex rest (elapsed - p.duration)) =
              p.duration + sumDurationsBefore rest
                (currentPhaseIndex rest (elapsed - p.duration)) := by
            simp [sumDurationsBefore, List.take_succ_cons, Nat.one_add]
          omega

/-- Witness for `c7_target_actors_amended`: one time unit into
`rampDownPhase` the source and amended formulas agree on 5, the
nonnegative-term floor identity holds at 3/4, and the phase-relative
elapsed time is nonnegative. -/
theorem c7_target_actors_amended_witness :
    targetActors [rampDownPhase] 1 = targetActorsSpec [rampDownPhase] 1 ∧
    goTrunc (3 / 4 : ℚ) = ⌊(3 / 4 : ℚ)⌋ ∧
    0 ≤ (1 : Int) - sumDurationsBefore [rampDownPhase] (currentPhaseIndex [rampDownPhase] 1) := by
  have h := c7_target_actors_amended [rampDownPhase] 1 (3 / 4 : ℚ)
  exact ⟨h.1, h.2.1 (by norm_num), h.2.2 (by norm_num)
    (by norm_num [currentPhaseIndex, rampDownPhase])⟩

/-! ## C9 — ComputePercentile -/

/-- C9, confirmed.  Over a sorted list of `n` durations, `ComputePercentile`
returns 0 for the empty list, the first element for `p ≤ 0`, the last for
`p ≥ 1`, and the element at index `⌊(n−1)·p⌋` for `0 < p < 1` (the Go
`int` conversion truncates, which on this nonnegative product is the
floor). -/
theorem c9_compute_percentile (l : List Int) (p : ℚ) :
    computePercentile [] p = 0 ∧
    (0 < l.length → p ≤ 0 → computePercentile l p = l.getD 0 0) ∧
    (0 < l.length → 1 ≤ p → computePercentile l p = l.getD (l.length - 1) 0) ∧
    (0 < l.length → 0 < p → p < 1 →
      computePercentile l p = l.getD (⌊((l.length : ℚ) - 1) * p⌋).toNat 0) := by
  refine ⟨by simp [computePercentile], ?_, ?_, ?_⟩
  · intro h0 hp
    have hne : ¬ l.length = 0 := by omega
    by_cases h1 : l.length = 1
    · simp [computePercentile, hne, h1]
    · simp [computePercentile, hne, h1, hp]
  · intro h0 hp
    have hne : ¬ l.length = 0 := by omega
    have hnp : ¬ p ≤ 0 := by linarith
    by_cases h1 : l.length = 1
    · simp [computePercentile, hne, h1]
    · simp [computePercentile, hne, h1, hnp, hp]
  · intro h0 hp hp1
    have hne : ¬ l.length = 0 := by omega
    have hnp : ¬ p ≤ 0 := by linarith
    have hnp1 : ¬ 1 ≤ p := by linarith
    by_cases h1 : l.length = 1
    · have : ((l.length : ℚ) - 1) * p = 0 := by
        rw [h1]; norm_num
      simp [computePercentile, hne, h1, this]
    · have h2 : (2 : Nat) ≤ l.length := by omega
      have hprod : 0 ≤ ((l.length : ℚ) - 1) * p := by
        have : (1 : ℚ) ≤ (l.length : ℚ) := by
          exact_mod_cast Nat.one_le_iff_ne_zero.mpr hne
        nlinarith
      simp [computePercentile, hne, h1, hnp, hnp1, goTrunc, hprod]

/-- Witness for `c9_compute_percentile`: p90 of ten sorted durations is the
element at index ⌊9 · 0.9⌋ = 8 (the value 90), matching the repository's
own `TestComputePercentile`. -/
theorem c9_compute_percentile_witness :
    computePercentile [10, 20, 30, 40, 50, 60, 70, 80, 90, 100] (9 / 10) = 90 := by
  have h := (c9_compute_percentile [10, 20, 30, 40, 50, 60, 70, 80, 90, 100]
    (9 / 10)).2.2.2 (by norm_num) (by norm_num) (by norm_num)
  rw [h]
  norm_num
  decide

/-! ## C8 — Runner iteration accounting -/

/-- C8, confirmed.  With `maxIterations = M > 0` and warmup `W`, the
iteration counter after `n` calls is `min n M`; calls `0..M−1` execute the
workflow (even when it errors) and increment the counter by one; every
call from the M-th on returns the `MaxIterationsReached` sentinel without
executing; an executing call `n` routes its reports to the discarding
reporter iff `n < W` (so the first `min W M` executions are warmup); and
at most `max 0 (M−W)` executions ever report to the real reporter. -/
theorem c8_runner_iteration_accounting (cfg : RunnerConfig)
    (errs : Nat → Option String) (hM : 0 < cfg.maxIterations) :
    (∀ n : Nat, runnerCounter cfg errs n = min (n : Int) cfg.maxIterations) ∧
    (∀ n : Nat, (n : Int) < cfg.maxIterations →
      (runnerCall cfg errs n).1 = .ran (errs n) ∧
      runnerCounter cfg errs (n + 1) = runnerCounter cfg errs n + 1 ∧
      ((runnerCall cfg errs n).2.2 = true ↔ (n : Int) < cfg.warmupIters)) ∧
    (∀ n : Nat, cfg.maxIterations ≤ (n : Int) →
      (runnerCall cfg errs n).1 = .sentinel) ∧
    (∀ n : Nat, (runnerRealReports cfg errs n : Int) ≤
      max 0 (cfg.maxIterations - cfg.warmupIters)) := by
  have hcount : ∀ n : Nat, runnerCounter cfg errs n = min (n : Int) cfg.maxIterations := by
    intro n
    induction n with
    | zero => simp [runnerCounter]; omega
    | succ n ih =>
        rw [runnerCounter, ih]
        unfold runIteration
        by_cases hn : (n : Int) < cfg.maxIterations
        · rw [if_neg (show ¬ (0 < cfg.maxIterations ∧
              cfg.maxIterations ≤ min (n : Int) cfg.maxIterations) by omega)]
          show min (n : Int) cfg.maxIterations + 1 = _
          push_cast
          omega
        · rw [if_pos (show (0 < cfg.maxIterations ∧
              cfg.maxIterations ≤ min (n : Int) cfg.maxIterations) by omega)]
          show min (n : Int) cfg.maxIterations = _
          push_cast
          omega
  have hexec : ∀ n : Nat, (n : Int) < cfg.maxIterations →
      (runnerCall cfg errs n).1 = .ran (errs n) ∧
      runnerCounter cfg errs (n + 1) = runnerCounter cfg errs n + 1 ∧
      ((runnerCall cfg errs n).2.2 = true ↔ (n : Int) < cfg.warmupIters) := by
    intro n hn
    have hc := hcount n
    have hgate : ¬ (0 < cfg.maxIterations ∧
        cfg.maxIterations ≤ runnerCounter cfg errs n) := by
      omega
    have hcn : runnerCounter cfg errs n = (n : Int) := by omega
    have hg2 : ¬ (0 < cfg.maxIterations ∧ cfg.maxIterations ≤ (n : Int)) := by
      omega
    refine ⟨?_, ?_, ?_⟩
    · simp [runnerCall, runIteration, hgate]
    · rw [runnerCounter]
      simp [runnerCall, runIteration, hgate]
    · simp [runnerCall, runIteration, hcn, hg2]
  refine ⟨hcount, hexec, ?_, ?_⟩
  · intro n hn
    have hc := hcount n
    have hgate : 0 < cfg.maxIterations ∧
        cfg.maxIterations ≤ runnerCounter cfg errs n := by
      omega
    simp [runnerCall, runIteration, hgate]
  · intro n
    have key : ∀ m : Nat, (runnerRealReports cfg errs m : Int) ≤
        max 0 (min (m : Int) cfg.maxIterations - cfg.warmupIters) := by
      intro m
      induction m with
      | zero => simp [runnerRealReports]
      | succ m ih =>
          rw [runnerRealReports]
          by_cases hm : (m : Int) < cfg.maxIterations
          · obtain ⟨h1, _, h3⟩ := hexec m hm
            by_cases hw : (m : Int) < cfg.warmupIters
            · have hb : (runnerCall cfg errs m).2.2 = true := h3.mpr hw
              rcases hcall : runnerCall cfg errs m with ⟨o, cnt, b⟩
              rw [hcall] at h1 hb
              simp only at h1 hb
              subst h1 hb
              push_cast
              omega
            · rcases hcall : runnerCall cfg errs m with ⟨o, cnt, b⟩
              rw [hcall] at h1
              simp only at h1
              subst h1
              rcases b with _ | _ <;> push_cast <;> omega
          · have hgate : 0 < cfg.maxIterations ∧
                cfg.maxIterations ≤ runnerCounter cfg errs m := by
              have := hcount m
              omega
            have hs : (runnerCall cfg errs m).1 = .sentinel := by
              simp [runnerCall, runIteration, hgate]
            rcases hcall : runnerCall cfg errs m with ⟨o, cnt, b⟩
            rw [hcall] at hs
            simp only at hs
            subst hs
            push_cast
            omega
    have := key n
    omega

/-- Witness for `c8_runner_iteration_accounting` at `M = 3`, `W = 1`, an
error-free workflow: call 1 executes without warmup, call 3 is the
sentinel, and at most two calls reported for real. -/
theorem c8_runner_iteration_accounting_witness :
    (runnerCall ⟨3, 1⟩ (fun _ => none) 1).1 = .ran none ∧
    ((runnerCall ⟨3, 1⟩ (fun _ => none) 1).2.2 = true ↔ (1 : Int) < 1) ∧
    (runnerCall ⟨3, 1⟩ (fun _ => none) 3).1 = .sentinel ∧
    (runnerRealReports ⟨3, 1⟩ (fun _ => none) 5 : Int) ≤ max 0 (3 - 1) := by
  have h := c8_runner_iteration_accounting ⟨3, 1⟩ (fun _ => none) (by norm_num)
  have h1 := h.2.1 1 (by norm_num)
  exact ⟨h1.1, h1.2.2, h.2.2.1 3 (by norm_num), h.2.2.2 5⟩

/-! ## C10 — Threshold evaluation -/

/-- C10, confirmed.  `Thresholds.Check` records one result per configured
nonzero latency bound, passing iff the actual is strictly below the bound;
the failure-rate check is skipped unless the trimmed rate string ends in
`%` and parses as a number, and otherwise passes iff `100 − successRate`
is strictly below the threshold; the aggregate `Passed` is the conjunction
of all recorded results and `true` when none were recorded —
`thresholdsCheckSpec` states exactly this, and `Check` equals it. -/
theorem c10_thresholds_check (t : Option Thresholds) (m : Metrics) :
    thresholdsCheck t m = thresholdsCheckSpec t m := by
  have fold_spec : ∀ (cs : List (String × Int × Int)) (r : ThresholdResults),
      checkDurationFold r cs =
        ⟨r.passed && ((cs.filter (fun c => c.2.1 ≠ 0)).map
            (fun c => (⟨c.1, decide (c.2.2 < c.2.1)⟩ : ThresholdResult))).all
            (·.passed),
         r.results ++ (cs.filter (fun c => c.2.1 ≠ 0)).map
            (fun c => (⟨c.1, decide (c.2.2 < c.2.1)⟩ : ThresholdResult))⟩ := by
    intro cs
    induction cs with
    | nil => intro r; simp [checkDurationFold]
    | cons c rest ih =>
        intro r
        by_cases hz : c.2.1 = 0
        · rw [checkDurationFold, List.foldl_cons]
          rw [show (List.foldl _ _ rest = checkDurationFold (if c.2.1 = 0 then r
              else { passed := r.passed && decide (c.2.2 < c.2.1),
                     results := r.results ++ [⟨c.1, decide (c.2.2 < c.2.1)⟩] }) rest)
            from rfl]
          simp only [hz, if_true]
          rw [ih r]
          simp [hz]
        · rw [checkDurationFold, List.foldl_cons]
          rw [show (List.foldl _ _ rest = checkDurationFold (if c.2.1 = 0 then r
              else { passed := r.passed && decide (c.2.2 < c.2.1),
                     results := r.results ++ [⟨c.1, decide (c.2.2 < c.2.1)⟩] }) rest)
            from rfl]
          simp only [hz, if_false]
          rw [ih]
          simp [hz, Bool.and_assoc]
  cases t with
  | none => rfl
  | some t =>
      cases hd : t.httpReqDuration with
      | none =>
          cases hf : t.httpReqFailed with
          | none => simp [thresholdsCheck, thresholdsCheckSpec, hd, hf]
          | some f =>
              by_cases hr : f.rate = ""
              · have hp : parsePercentage "" = none := by decide
                simp [thresholdsCheck, thresholdsCheckSpec, hd, hf, hr, hp]
              · cases hp : parsePercentage f.rate with
                | none =>
                    simp [thresholdsCheck, thresholdsCheckSpec, hd, hf, hr, hp,
                      checkFailureRate]
                | some thr =>
                    simp [thresholdsCheck, thresholdsCheckSpec, hd, hf, hr, hp,
                      checkFailureRate]
      | some d =>
          cases hf : t.httpReqFailed with
          | none =>
              simp [thresholdsCheck, thresholdsCheckSpec, hd, hf, fold_spec]
          | some f =>
              by_cases hr : f.rate = ""
              · have hp : parsePercentage "" = none := by decide
                simp [thresholdsCheck, thresholdsCheckSpec, hd, hf, hr, hp,
                  fold_spec]
              · cases hp : parsePercentage f.rate with
                | none =>
                    simp [thresholdsCheck, thresholdsCheckSpec, hd, hf, hr, hp,
                      fold_spec, checkFailureRate]
                | some thr =>
                    simp [thresholdsCheck, thresholdsCheckSpec, hd, hf, hr, hp,
                      fold_spec, checkFailureRate, Bool.and_comm]

/-! ## Shared lemmas: non-emptiness of error texts -/

theorem str_append_ne_empty {a : String} (b : String) (ha : a ≠ "") :
    a ++ b ≠ "" := by
  intro hc
  apply ha
  have h1 := congrArg String.length hc
  rw [String.length_append] at h1
  have h0 : String.length "" = 0 := rfl
  have h2 : a.length = 0 := by omega
  cases a with
  | mk data =>
      cases data with
      | nil => rfl
      | cons c cs => simp [String.length] at h2

theorem errorsJoin_ne_empty {l : List String} (hl : l ≠ [])
    (hm : ∀ m ∈ l, m ≠ "") : errorsJoin l ≠ "" := by
  cases l with
  | nil => exact absurd rfl hl
  | cons e rest =>
      cases rest with
      | nil =>
          show e ≠ ""
          exact hm e (by simp)
      | cons e2 rest2 =>
          show e ++ "\n" ++ errorsJoin (e2 :: rest2) ≠ ""
          exact str_append_ne_empty _ (str_append_ne_empty _ (hm e (by simp)))

theorem evalFunction_error_ne_empty (E : TplEnv) (hE : E.WF) (expr e : String)
    (h : evalFunction E expr = some (.error e)) : e ≠ "" := by
  unfold evalFunction at h
  dsimp only at h
  split at h
  · split at h
    · exact hE _ _ _ h
    · exact Option.noConfusion h
  · exact Option.noConfusion h

theorem substHole_msg_ne_empty (E : TplEnv) (hE : E.WF) (vars : Variables)
    (expr m : String) (h : (substHole E vars expr).2 = some m) : m ≠ "" := by
  unfold substHole at h
  dsimp only at h
  split at h
  · split at h
    · exact Option.noConfusion h
    · simp only [Prod.snd] at h
      cases h
      exact str_append_ne_empty _ (str_append_ne_empty _ (by decide))
  · split at h
    · exact Option.noConfusion h
    · simp only [Prod.snd] at h
      cases h
      exact evalFunction_error_ne_empty E hE expr m (by assumption)
    · split at h
      · exact Option.noConfusion h
      · simp only [Prod.snd] at h
        cases h
        exact str_append_ne_empty _ (str_append_ne_empty _ (by decide))

theorem substitute_msgs_ne_empty (E : TplEnv) (hE : E.WF) (vars : Variables)
    (t : Template) : ∀ m ∈ (substitute E vars t).2, m ≠ "" := by
  induction t with
  | nil => simp [substitute]
  | cons seg rest ih =>
      cases seg with
      | lit s =>
          simpa [substitute] using ih
      | hole expr =>
          intro m hm
          simp only [substitute, List.mem_append] at hm
          rcases hm with hm | hm
          · rcases hopt : (substHole E vars expr).2 with _ | msg
            · rw [hopt] at hm; simp at hm
            · rw [hopt] at hm
              simp at hm
              subst hm
              exact substHole_msg_ne_empty E hE vars expr m hopt
          · exact ih m hm

theorem substituteMap_msgs_ne_empty (E : TplEnv) (vars : Variables)
    (hs : List (String × Template)) :
    ∀ m ∈ (substituteMap E vars hs).2, m ≠ "" := by
  have key : ∀ (l : List (String × Template))
      (acc : List (String × String) × List String),
      (∀ m ∈ acc.2, m ≠ "") →
      ∀ m ∈ (List.foldl (fun acc h =>
          let r := substitute E vars h.2
          if r.2 = [] then (acc.1 ++ [(h.1, r.1)], acc.2)
          else (acc.1, acc.2 ++ ["header \"" ++ h.1 ++ "\": " ++
            errorsJoin r.2])) acc l).2, m ≠ "" := by
    intro l
    induction l with
    | nil => intro acc hacc; simpa using hacc
    | cons h rest ih =>
        intro acc hacc
        rw [List.foldl_cons]
        by_cases hr : (substitute E vars h.2).2 = []
        · simp only [hr, if_true]
          exact ih _ hacc
        · simp only [hr, if_false]
          refine ih _ ?_
          intro m hm
          simp only [List.mem_append] at hm
          rcases hm with hm | hm
          · exact hacc m hm
          · simp at hm
            subst hm
            exact str_append_ne_empty _ (str_append_ne_empty _
              (str_append_ne_empty _ (by decide)))
  exact key hs ([], []) (by simp)

theorem extractFn_error_msgs (body : JsonBody) (rules : List (String × String))
    (errs : List String) (h : extractFn body rules = .error errs) :
    errs ≠ [] ∧ ∀ m ∈ errs, m ≠ "" := by
  unfold extractFn at h
  dsimp only at h
  split at h
  · exact Except.noConfusion h
  · split at h
    · cases h
      refine ⟨by simp, ?_⟩
      intro m hm
      simp at hm
      subst hm
      decide
    · rename_i j sz
      have key : ∀ (l : List (String × String))
          (acc : List (String × Json) × List String),
          (∀ m ∈ acc.2, m ≠ "") →
          ∀ m ∈ (List.foldl (fun acc r =>
              match jsonGet j (convertJSONPath r.2) with
              | none => (acc.1, acc.2 ++
                  ["path \"" ++ r.2 ++ "\" not found for variable \"" ++ r.1 ++ "\""])
              | some v => (acc.1 ++ [(r.1, v)], acc.2)) acc l).2, m ≠ "" := by
        intro l
        induction l with
        | nil => intro acc hacc; simpa using hacc
        | cons r rest ih =>
            intro acc hacc
            rw [List.foldl_cons]
            cases hjg : jsonGet j (convertJSONPath r.2) with
            | none =>
                simp only [hjg]
                refine ih _ ?_
                intro m hm
                simp only [List.mem_append] at hm
                rcases hm with hm | hm
                · exact hacc m hm
                · simp at hm
                  subst hm
                  exact str_append_ne_empty _ (str_append_ne_empty _
                    (str_append_ne_empty _ (str_append_ne_empty _ (by decide))))
            | some v =>
                simp only [hjg]
                exact ih _ hacc
      split at h
      · exact Except.noConfusion h
      · cases h
        rename_i hne
        exact ⟨hne, key rules ([], []) (by simp)⟩

/-! ## Shared lemmas: step execution and the workflow loop -/

theorem workflowRunGo_cons_error (E : TplEnv) (id : Int) (vars : Variables)
    (s : StepScript) (rest : List StepScript) (e : String)
    (h : (stepExecute E s.cfg s.exch vars s.dur).2 = some e) :
    workflowRunGo E id vars (s :: rest) =
      ([mkEvent id s.cfg.name (stepExecute E s.cfg s.exch vars s.dur).1],
       some e) := by
  unfold workflowRunGo
  dsimp only
  rw [h]

theorem workflowRunGo_cons_ok (E : TplEnv) (id : Int) (vars : Variables)
    (s : StepScript) (rest : List StepScript)
    (h : (stepExecute E s.cfg s.exch vars s.dur).2 = none) :
    workflowRunGo E id vars (s :: rest) =
      (mkEvent id s.cfg.name (stepExecute E s.cfg s.exch vars s.dur).1 ::
        (workflowRunGo E id
          (applyExtract vars (stepExecute E s.cfg s.exch vars s.dur).1) rest).1,
       (workflowRunGo E id
          (applyExtract vars (stepExecute E s.cfg s.exch vars s.dur).1) rest).2) := by
  conv_lhs => rw [workflowRunGo]
  dsimp only
  rw [h]

theorem stepExecute_extract_some_success (E : TplEnv) (cfg : StepConfig)
    (exch : Exchange) (vars : Variables) (dur : Int)
    (h : (stepExecute E cfg exch vars dur).1.extract ≠ none) :
    (stepExecute E cfg exch vars dur).1.success = true := by
  unfold stepExecute at h ⊢
  dsimp only at h ⊢
  by_cases h1 : (substitute E vars cfg.url).2 = []
  · rw [if_neg (by simp [h1])] at h ⊢
    by_cases h2 : (substitute E vars cfg.body).2 = []
    · rw [if_neg (by simp [h2])] at h ⊢
      by_cases h3 : (substituteMap E vars cfg.headers).2 = []
      · rw [if_neg (by simp [h3])] at h ⊢
        cases exch with
        | reqErr m => simp at h
        | transportErr m => simp at h
        | resp status statusLine body =>
            dsimp only at h ⊢
            by_cases h4 : status < 400 ∧ cfg.extract ≠ []
            · rw [if_pos h4] at h ⊢
              cases hex : extractFn body cfg.extract with
              | ok kvs => rfl
              | error errs => rw [hex] at h; simp at h
            · rw [if_neg h4] at h
              simp at h
      · rw [if_pos h3] at h
        simp at h
    · rw [if_pos h2] at h
      simp at h
  · rw [if_pos h1] at h
    simp at h

theorem stepExecute_success_iff (E : TplEnv) (hE : E.WF) (cfg : StepConfig)
    (exch : Exchange) (hx : exch.WF) (vars : Variables) (dur : Int) :
    (stepExecute E cfg exch vars dur).1.success = true ↔
      ((stepExecute E cfg exch vars dur).1.error = "" ∧
       (stepExecute E cfg exch vars dur).1.statusCode < 400) := by
  unfold stepExecute
  dsimp only
  by_cases h1 : (substitute E vars cfg.url).2 = []
  · rw [if_neg (by simp [h1])]
    by_cases h2 : (substitute E vars cfg.body).2 = []
    · rw [if_neg (by simp [h2])]
      by_cases h3 : (substituteMap E vars cfg.headers).2 = []
      · rw [if_neg (by simp [h3])]
        cases exch with
        | reqErr m =>
            have hm : m ≠ "" := hx
            simp [hm]
        | transportErr m =>
            have hm : m ≠ "" := hx
            simp [hm]
        | resp status statusLine body =>
            dsimp only
            by_cases h4 : status < 400 ∧ cfg.extract ≠ []
            · rw [if_pos h4]
              cases hex : extractFn body cfg.extract with
              | ok kvs => simp [h4.1]
              | error errs =>
                  have hmsgs := extractFn_error_msgs body cfg.extract errs hex
                  simp [errorsJoin_ne_empty hmsgs.1 hmsgs.2]
            · rw [if_neg h4]
              by_cases h5 : status < 400
              · simp [h5]
              · have hne : statusLine ≠ "" := hx
                simp [h5, hne]
      · rw [if_pos h3]
        simp [errorsJoin_ne_empty h3 (substituteMap_msgs_ne_empty E vars cfg.headers)]
    · rw [if_pos h2]
      simp [errorsJoin_ne_empty h2 (substitute_msgs_ne_empty E hE vars cfg.body)]
  · rw [if_pos h1]
    simp [errorsJoin_ne_empty h1 (substitute_msgs_ne_empty E hE vars cfg.url)]

theorem workflowRunGo_success_iff (E : TplEnv) (hE : E.WF) (id : Int) :
    ∀ (steps : List StepScript) (vars : Variables),
      (∀ s ∈ steps, s.exch.WF) →
      ∀ e ∈ (workflowRunGo E id vars steps).1,
        e.success = true ↔ (e.error = "" ∧ e.statusCode < 400) := by
  intro steps
  induction steps with
  | nil => intro vars _ e he; simp [workflowRunGo] at he
  | cons s rest ih =>
      intro vars hWF e he
      have hs : s.exch.WF := hWF s (by simp)
      have hiff := stepExecute_success_iff E hE s.cfg s.exch hs vars s.dur
      cases herr : (stepExecute E s.cfg s.exch vars s.dur).2 with
      | some msg =>
          rw [workflowRunGo_cons_error E id vars s rest msg herr] at he
          simp at he
          subst he
          simpa [mkEvent] using hiff
      | none =>
          rw [workflowRunGo_cons_ok E id vars s rest herr] at he
          simp at he
          rcases he with he | he
          · subst he
            simpa [mkEvent] using hiff
          · exact ih _ (fun s' hs' => hWF s' (by simp [hs'])) e he

theorem extractFn_error_messages_structure (j : Json) (sz : Int)
    (rules : List (String × String)) (errs : List String)
    (h : extractFn (.valid j sz) rules = .error errs) :
    errs = (rules.filter
        (fun r => (jsonGet j (convertJSONPath r.2)).isNone)).map
      (fun r => "path \"" ++ r.2 ++ "\" not found for variable \"" ++
        r.1 ++ "\"") := by
  unfold extractFn at h
  dsimp only at h
  split at h
  · exact Except.noConfusion h
  · have key : ∀ (l : List (String × String))
        (acc : List (String × Json) × List String),
        (List.foldl (fun acc r =>
            match jsonGet j (convertJSONPath r.2) with
            | none => (acc.1, acc.2 ++
                ["path \"" ++ r.2 ++ "\" not found for variable \"" ++
                  r.1 ++ "\""])
            | some v => (acc.1 ++ [(r.1, v)], acc.2)) acc l).2 =
          acc.2 ++ (l.filter
              (fun r => (jsonGet j (convertJSONPath r.2)).isNone)).map
            (fun r => "path \"" ++ r.2 ++ "\" not found for variable \"" ++
              r.1 ++ "\"") := by
      intro l
      induction l with
      | nil => intro acc; simp
      | cons r rest ih =>
          intro acc
          rw [List.foldl_cons]
          cases hjg : jsonGet j (convertJSONPath r.2) with
          | none => simp [hjg, ih, List.filter_cons]
          | some v => simp [hjg, ih, List.filter_cons]
    split at h
    · exact Except.noConfusion h
    · cases h
      simpa using key rules ([], [])

/-! ## C5 — merge of extracted values into Variables -/

/-- C5, counterexample.  The claim states `Workflow.Run` merges a `Result`'s
extracted values only when `success` is true.  The merge step (workflow.go
lines 57-61) checks only `result.Extract != nil`: applied to a `Result`
with `success = false` that carries an extract map, it changes the
iteration's Variables. -/
theorem c5_merge_ignores_success :
    badResult.success = false ∧
    applyExtract newVariables badResult ≠ newVariables := by
  refine ⟨rfl, ?_⟩
  intro hc
  have hv : applyExtract newVariables badResult = [("k", Json.str "v")] := rfl
  rw [hv] at hc
  simp [newVariables] at hc

/-- C5, amended.  `Workflow.Run` merges whenever `Result.Extract` is
non-nil, without consulting `success`; for the step Results this program
actually produces (`Step.Execute`), a non-nil extract map occurs only on
`success = true`, so every failed step leaves the Variables unchanged. -/
theorem c5_merge_only_on_success_via_step (E : TplEnv) (cfg : StepConfig)
    (exch : Exchange) (vars : Variables) (dur : Int) :
    ((stepExecute E cfg exch vars dur).1.extract ≠ none →
      (stepExecute E cfg exch vars dur).1.success = true) ∧
    ((stepExecute E cfg exch vars dur).1.success = false →
      applyExtract vars (stepExecute E cfg exch vars dur).1 = vars) := by
  constructor
  · exact stepExecute_extract_some_success E cfg exch vars dur
  · intro hf
    cases hext : (stepExecute E cfg exch vars dur).1.extract with
    | some kvs =>
        have hs := stepExecute_extract_some_success E cfg exch vars dur
          (by rw [hext]; simp)
        rw [hs] at hf
        exact Bool.noConfusion hf
    | none => simp [applyExtract, hext]

/-- Witness for `c5_merge_only_on_success_via_step`: a successful
extraction implies a successful result, and a transport-failed step leaves
the variables untouched. -/
theorem c5_merge_only_on_success_via_step_witness :
    (stepExecute emptyTplEnv extractOkStep.cfg extractOkStep.exch
      newVariables 5).1.success = true ∧
    applyExtract newVariables
      (stepExecute emptyTplEnv transportStep.cfg transportStep.exch
        newVariables 3).1 = newVariables := by
  constructor
  · refine (c5_merge_only_on_success_via_step emptyTplEnv extractOkStep.cfg
      extractOkStep.exch newVariables 5).1 ?_
    have hx : (stepExecute emptyTplEnv extractOkStep.cfg extractOkStep.exch
        newVariables 5).1.extract = some [("rid", Json.str "t")] := rfl
    rw [hx]
    simp
  · exact (c5_merge_only_on_success_via_step emptyTplEnv transportStep.cfg
      transportStep.exch newVariables 3).2 rfl

/-! ## C6 — success ⇔ empty error ∧ status < 400 -/

/-- C6, confirmed.  Every event a workflow iteration reports — from
successful steps, status-coded failures, request-creation and transport
errors, substitution failures and failed extractions — and every synthetic
panic event satisfies `success = true ↔ (error = "" ∧ statusCode < 400)`,
provided the standard library's error/status strings are non-empty
(`Exchange.WF`) and registered template functions return non-empty error
messages (`TplEnv.WF`). -/
theorem c6_success_error_status_invariant (E : TplEnv) (hE : E.WF) (id : Int)
    (steps : List StepScript) (hWF : ∀ s ∈ steps, s.exch.WF) :
    (∀ e ∈ (workflowRun E id none steps).1,
      e.success = true ↔ (e.error = "" ∧ e.statusCode < 400)) ∧
    (∀ pid msg, (panicEvent pid msg).success = true ↔
      ((panicEvent pid msg).error = "" ∧
       (panicEvent pid msg).statusCode < 400)) := by
  constructor
  · intro e he
    exact workflowRunGo_success_iff E hE id steps newVariables hWF e he
  · intro pid msg
    have hne : "panic: " ++ msg ≠ "" := str_append_ne_empty msg (by decide)
    simp [panicEvent, hne]

/-- Witness for `c6_success_error_status_invariant` at a one-step script
with a plain 200 response. -/
theorem c6_success_error_status_invariant_witness :
    ((workflowRun emptyTplEnv 3 none [okStep]).1.getD 0 (panicEvent 0 "x")).success = true ↔
      (((workflowRun emptyTplEnv 3 none [okStep]).1.getD 0 (panicEvent 0 "x")).error = "" ∧
       ((workflowRun emptyTplEnv 3 none [okStep]).1.getD 0 (panicEvent 0 "x")).statusCode < 400) := by
  refine (c6_success_error_status_invariant emptyTplEnv ?_ 3 [okStep] ?_).1 _ ?_
  · intro name args e h
    exact Option.noConfusion h
  · intro s hs
    simp at hs
    subst hs
    exact (by decide : ("200 OK" : String) ≠ "")
  · decide

/-! ## C1 — transport error and the executor loop -/

/-- C1, counterexample.  The claim states a transport error ends only the
current iteration and the executor proceeds to its next iteration.  An
actor whose first iteration hits a transport error makes exactly one
`workflow.Run` call and reports only that iteration's single event — the
scripted second iteration never runs, because the `Coordinator.Spawn`
loop returns on any non-nil workflow error. -/
theorem c1_executor_exits_on_transport_error :
    (spawnActorLoop emptyTplEnv 7 [[transportStep], [okStep]]).2 = 1 ∧
    ((spawnActorLoop emptyTplEnv 7 [[transportStep], [okStep]]).1.map
      Event.step) = ["t"] := by
  exact ⟨by decide, by decide⟩

/-- C1, amended.  A transport error aborts the remaining steps of the
current iteration AND ends the executor's loop: the actor body of
`Coordinator.Spawn` returns on any non-nil `workflow.Run` error, so the
executor does not start another iteration (cancellation, a stop signal,
the iteration-cap sentinel, and any workflow error all end the
executor). -/
theorem c1_transport_error_ends_executor (E : TplEnv) (id : Int)
    (it : List StepScript) (rest : List (List StepScript)) (e : String)
    (h : (workflowRun E id none it).2 = some e) :
    spawnActorLoop E id (it :: rest) = ((workflowRun E id none it).1, 1) ∧
    (∀ (vars : Variables) (s : StepScript) (rest2 : List StepScript)
        (e2 : String),
      (stepExecute E s.cfg s.exch vars s.dur).2 = some e2 →
      (workflowRunGo E id vars (s :: rest2)).1 =
        [mkEvent id s.cfg.name (stepExecute E s.cfg s.exch vars s.dur).1]) := by
  constructor
  · conv_lhs => rw [spawnActorLoop]
    dsimp only
    rw [h]
  · intro vars s rest2 e2 h2
    rw [workflowRunGo_cons_error E id vars s rest2 e2 h2]

/-- Witness for `c1_transport_error_ends_executor`: one transport-failing
iteration followed by a scripted iteration that never runs. -/
theorem c1_transport_error_ends_executor_witness :
    spawnActorLoop emptyTplEnv 9 [[transportStep], [okStep]] =
      ((workflowRun emptyTplEnv 9 none [transportStep]).1, 1) ∧
    (workflowRunGo emptyTplEnv 9 newVariables [transportStep, okStep]).1 =
      [mkEvent 9 transportStep.cfg.name
        (stepExecute emptyTplEnv transportStep.cfg transportStep.exch
          newVariables transportStep.dur).1] := by
  have h := c1_transport_error_ends_executor emptyTplEnv 9 [transportStep]
    [[okStep]] "Get \"u\": connection refused" rfl
  exact ⟨h.1, h.2 newVariables transportStep [okStep]
    "Get \"u\": connection refused" rfl⟩

/-! ## C4 — template and extraction failures -/

/-- C4, counterexample.  The claim states every substitution or extraction
failure aborts the iteration.  A two-step iteration whose first step's
extraction fails (path `$.id` missing from the body) records the
non-success event with the offending path and variable in its error text,
but `Step.Execute` returns a *nil* Go error for extraction failures, so
the second step still executes: the iteration is not aborted. -/
theorem c4_extraction_failure_does_not_abort :
    ((workflowRun emptyTplEnv 1 none [extractFailStep, okStep]).1.map
      Event.step) = ["a", "b"] ∧
    ((workflowRun emptyTplEnv 1 none [extractFailStep, okStep]).1.map
      Event.success) = [false, true] ∧
    ((workflowRun emptyTplEnv 1 none [extractFailStep, okStep]).1.map
      Event.error) = ["path \"$.id\" not found for variable \"rid\"", ""] ∧
    (workflowRun emptyTplEnv 1 none [extractFailStep, okStep]).2 = none := by
  exact ⟨by decide, by decide, by decide, by decide⟩

/-- C4, amended.  A failed template substitution records a non-success
Event whose error text joins messages naming the offending variables, and
aborts the iteration (`Execute` returns the error, so no later step of
the iteration executes).  A failed JSON extraction records a non-success
Event whose error text joins one `path ... not found for variable ...`
message per missing rule, but does NOT abort the iteration: `Execute`
returns a nil error and the remaining steps still execute. -/
theorem c4_failure_recording_and_abort (E : TplEnv) (id : Int)
    (vars : Variables) (s : StepScript) (rest : List StepScript) :
    ((substitute E vars s.cfg.url).2 ≠ [] →
      (stepExecute E s.cfg s.exch vars s.dur).2 =
        some (errorsJoin (substitute E vars s.cfg.url).2) ∧
      (stepExecute E s.cfg s.exch vars s.dur).1.success = false ∧
      (stepExecute E s.cfg s.exch vars s.dur).1.error =
        errorsJoin (substitute E vars s.cfg.url).2) ∧
    (∀ e, (stepExecute E s.cfg s.exch vars s.dur).2 = some e →
      workflowRunGo E id vars (s :: rest) =
        ([mkEvent id s.cfg.name (stepExecute E s.cfg s.exch vars s.dur).1],
         some e)) ∧
    (∀ (status : Int) (statusLine : String) (body : JsonBody)
        (errs : List String),
      s.exch = .resp status statusLine body → status < 400 →
      s.cfg.extract ≠ [] →
      (substitute E vars s.cfg.url).2 = [] →
      (substitute E vars s.cfg.body).2 = [] →
      (substituteMap E vars s.cfg.headers).2 = [] →
      extractFn body s.cfg.extract = .error errs →
      (stepExecute E s.cfg s.exch vars s.dur).1.success = false ∧
      (stepExecute E s.cfg s.exch vars s.dur).1.error = errorsJoin errs ∧
      (stepExecute E s.cfg s.exch vars s.dur).2 = none) ∧
    ((stepExecute E s.cfg s.exch vars s.dur).2 = none →
      (workflowRunGo E id vars (s :: rest)).1 =
        mkEvent id s.cfg.name (stepExecute E s.cfg s.exch vars s.dur).1 ::
          (workflowRunGo E id
            (applyExtract vars (stepExecute E s.cfg s.exch vars s.dur).1)
            rest).1) ∧
    (∀ (j : Json) (sz : Int) (rules : List (String × String))
        (errs2 : List String),
      extractFn (.valid j sz) rules = .error errs2 →
      errs2 = (rules.filter
          (fun r => (jsonGet j (convertJSONPath r.2)).isNone)).map
        (fun r => "path \"" ++ r.2 ++ "\" not found for variable \"" ++
          r.1 ++ "\"")) ∧
    (∀ expr : String,
      List.isPrefixOf "env:".toList expr.toList = false →
      evalFunction E expr = none → Variables.get vars expr = none →
      (substHole E vars expr).2 =
        some ("variable \"" ++ expr ++ "\" not found")) := by
  refine ⟨?_, ?_, ?_, ?_, ?_, ?_⟩
  · intro h
    unfold stepExecute
    dsimp only
    rw [if_pos h]
    exact ⟨rfl, rfl, rfl⟩
  · intro e he
    exact workflowRunGo_cons_error E id vars s rest e he
  · intro status statusLine body errs hexch hstat hext hurl hbody hhdr hfail
    rw [hexch]
    unfold stepExecute
    dsimp only
    rw [if_neg (by simp [hurl])]
    rw [if_neg (by simp [hbody])]
    rw [if_neg (by simp [hhdr])]
    rw [if_pos ⟨hstat, hext⟩, hfail]
    exact ⟨rfl, rfl, rfl⟩
  · intro h
    rw [workflowRunGo_cons_ok E id vars s rest h]
  · intro j sz rules errs2 h
    exact extractFn_error_messages_structure j sz rules errs2 h
  · intro expr hpre hfn hvar
    unfold substHole
    dsimp only
    rw [if_neg (by simp only [hpre]; decide)]
    rw [hfn, hvar]

/-- Witness for `c4_failure_recording_and_abort`: an unknown-variable URL
aborts its step with the variable named in the error, while the
missing-path extraction records its failure and lets the next step run. -/
theorem c4_failure_recording_and_abort_witness :
    (stepExecute emptyTplEnv badUrlStep.cfg badUrlStep.exch newVariables
      badUrlStep.dur).1.success = false ∧
    (stepExecute emptyTplEnv extractFailStep.cfg extractFailStep.exch
      newVariables extractFailStep.dur).2 = none ∧
    (substHole emptyTplEnv newVariables "tok").2 =
      some ("variable \"tok\" not found") := by
  refine ⟨?_, ?_, ?_⟩
  · refine ((c4_failure_recording_and_abort emptyTplEnv 1 newVariables
      badUrlStep [okStep]).1 ?_).2.1
    have hu : (substitute emptyTplEnv newVariables badUrlStep.cfg.url).2 =
        ["variable \"tok\" not found"] := rfl
    rw [hu]
    simp
  · refine ((c4_failure_recording_and_abort emptyTplEnv 1 newVariables
      extractFailStep [okStep]).2.2.1 200 "200 OK" (.valid (.obj []) 2)
      ["path \"$.id\" not found for variable \"rid\""]
      rfl (by norm_num) (by decide) rfl rfl rfl rfl).2.2
  · exact (c4_failure_recording_and_abort emptyTplEnv 1 newVariables
      badUrlStep [okStep]).2.2.2.2.2 "tok" (by decide) rfl rfl

end Maestro
